import Mathlib

/-!
Verification of the trading-decision engine of the bot-trader repository.

The definitions below are a shallow embedding of the TypeScript source:
prices and other JS numbers are modelled as rationals, arrays as lists,
optional fields as `Option`, and JS objects as structures.  Reason strings
produced by the engine carry only formatted numeric values, so they are
modelled as an inductive type whose constructors carry those values; equal
reason values format to equal strings because the formatter is a function.
The `Math.random()` draws inside the confirmed-recovery simulation are made
explicit arguments, so every function is total and executable.

The rational arithmetic of the standard library is marked irreducible,
which stops kernel evaluation of concrete inputs; the embedding therefore
computes with the `mkRat`-based wrappers `qAdd`, `qSub`, `qMul`, `qDiv`
below, each proved equal to the corresponding field operation on ℚ.
-/

/-- Kernel-reducible addition on ℚ. -/
def qAdd (a b : ℚ) : ℚ :=
  mkRat (a.num * (b.den : ℤ) + b.num * (a.den : ℤ)) (a.den * b.den)

/-- Kernel-reducible subtraction on ℚ. -/
def qSub (a b : ℚ) : ℚ :=
  mkRat (a.num * (b.den : ℤ) - b.num * (a.den : ℤ)) (a.den * b.den)

/-- Kernel-reducible multiplication on ℚ. -/
def qMul (a b : ℚ) : ℚ :=
  mkRat (a.num * b.num) (a.den * b.den)

/-- Kernel-reducible inverse on ℚ (inverse of 0 is 0, as in Mathlib). -/
def qInv (b : ℚ) : ℚ :=
  mkRat ((b.den : ℤ) * b.num.sign) b.num.natAbs

/-- Kernel-reducible division on ℚ (division by 0 gives 0, as in Mathlib;
the JS source never divides by zero on its intended inputs). -/
def qDiv (a b : ℚ) : ℚ :=
  qMul a (qInv b)

/-- Kernel-reducible rational literal `n / d`. -/
def qn (n : ℤ) (d : ℕ) : ℚ :=
  mkRat n d

/-- One timestamped price sample (interface StockData). -/
structure StockData where
  timestamp : ℤ
  price : ℚ
  volume : ℤ
deriving DecidableEq, Repr, Inhabited

/-- Price of the sample at index `i`, with a default sample out of range
(the source indexes inside proven-in-range loops only). -/
def priceAt (data : List StockData) (i : ℕ) : ℚ :=
  (data.getD i default).price

/-- Timestamp of the sample at index `i`. -/
def timeAt (data : List StockData) (i : ℕ) : ℤ :=
  (data.getD i default).timestamp

/-- Round half towards positive infinity: the floor of `x + 1/2`, computed
on the numerator and denominator with Euclidean division so that it
evaluates inside the kernel. -/
def roundHalfUp (x : ℚ) : ℤ :=
  (2 * x.num + (x.den : ℤ)).ediv (2 * (x.den : ℤ))

/-- JS `x.toFixed(2)` followed by `parseFloat`: round to 2 decimals.
ECMA-262 toFixed picks the larger candidate on ties, i.e. rounds half
towards positive infinity. -/
def toFixed2 (x : ℚ) : ℚ :=
  mkRat (roundHalfUp (qMul x 100)) 100

/-- JS `x || d` for an optional numeric setting: the default applies when
the field is absent or zero (0 is falsy in JS). -/
def jsOr (o : Option ℚ) (d : ℚ) : ℚ :=
  match o with
  | none => d
  | some x => if x = 0 then d else x

/-- JS `x || d` for an optional natural-number setting. -/
def jsOrNat (o : Option ℕ) (d : ℕ) : ℕ :=
  match o with
  | none => d
  | some x => if x = 0 then d else x

/-- Direction-change kind: local maximum or local minimum. -/
inductive DCType
  | peak
  | valley
deriving DecidableEq, Repr

/-- interface DirectionChangePoint. -/
structure DirectionChangePoint where
  index : ℕ
  timestamp : ℤ
  price : ℚ
  type : DCType
deriving DecidableEq, Repr

/-- getDirectionChangePoints: scan indices 1 .. length-2 for local extrema.
The JS loop `for (i = 1; i < length - 1; i++)` with conditional push is the
filterMap over `i = k + 1`, `k < length - 2`. -/
def getDirectionChangePoints (data : List StockData) : List DirectionChangePoint :=
  if data.length < 3 then []
  else
    (List.range (data.length - 2)).filterMap (fun k =>
      let i := k + 1
      let prevPrice := priceAt data (i - 1)
      let currentPrice := priceAt data i
      let nextPrice := priceAt data (i + 1)
      if prevPrice > currentPrice ∧ currentPrice < nextPrice then
        some { index := i, timestamp := timeAt data i, price := currentPrice,
               type := DCType.valley }
      else if prevPrice < currentPrice ∧ currentPrice > nextPrice then
        some { index := i, timestamp := timeAt data i, price := currentPrice,
               type := DCType.peak }
      else none)

/-- getLastDirectionChangePoint: last element of the direction changes, or null. -/
def getLastDirectionChangePoint (data : List StockData) : Option DirectionChangePoint :=
  (getDirectionChangePoints data).getLast?

/-- interface BeatSequence. -/
structure BeatSequence where
  id : String
  startIndex : ℕ
  endIndex : ℕ
  startTime : ℤ
  endTime : ℤ
  startPrice : ℚ
  endPrice : ℚ
  dollarGain : ℚ
  percentageChange : ℚ
  dataPoints : List StockData
deriving DecidableEq, Repr, Inhabited

/-- The BeatSequence object pushed by detectBeatSequences for a run starting
at `startIdx` and ending at `endIdx` (both sample indices). -/
def mkBeat (data : List StockData) (startIdx endIdx : ℕ) : BeatSequence :=
  let startData := data.getD startIdx default
  let endData := data.getD endIdx default
  let dollarGain := qSub endData.price startData.price
  let percentageChange := qMul (qDiv dollarGain startData.price) 100
  { id := "beat-" ++ toString startIdx ++ "-" ++ toString endIdx
    startIndex := startIdx
    endIndex := endIdx
    startTime := startData.timestamp
    endTime := endData.timestamp
    startPrice := startData.price
    endPrice := endData.price
    dollarGain := toFixed2 dollarGain
    percentageChange := toFixed2 percentageChange
    dataPoints := (data.drop startIdx).take (endIdx + 1 - startIdx) }

/-- Post-loop flush of detectBeatSequences: emit the run still open at the
end of the series when it is long enough. -/
def flushBeats (data : List StockData) (minC : ℕ) (currentSequenceStart : Option ℕ)
    (consecutivePositiveCount : ℕ) (sequences : List BeatSequence) : List BeatSequence :=
  if minC ≤ consecutivePositiveCount then
    match currentSequenceStart with
    | some s => sequences ++ [mkBeat data s (data.length - 1)]
    | none => sequences
  else sequences

/-- Loop body of detectBeatSequences.  `i` is the loop index; the fuel is
initialised to `data.length`, which is strictly more than the number of
remaining iterations, so the fuel never runs out before `i` reaches
`data.length`.  `currentSequenceStart = none` models the JS value -1. -/
def detectBeatSequencesAux (data : List StockData) (minC : ℕ) :
    ℕ → ℕ → Option ℕ → ℕ → List BeatSequence → List BeatSequence
  | 0, _, currentSequenceStart, consecutivePositiveCount, sequences =>
      flushBeats data minC currentSequenceStart consecutivePositiveCount sequences
  | fuel + 1, i, currentSequenceStart, consecutivePositiveCount, sequences =>
      if i < data.length then
        let currentPrice := priceAt data i
        let previousPrice := priceAt data (i - 1)
        let slope := qSub currentPrice previousPrice
        if 0 < slope then
          let newStart :=
            if consecutivePositiveCount = 0 then some (i - 1) else currentSequenceStart
          detectBeatSequencesAux data minC fuel (i + 1) newStart
            (consecutivePositiveCount + 1) sequences
        else
          let sequences' :=
            if minC ≤ consecutivePositiveCount then
              match currentSequenceStart with
              | some s => sequences ++ [mkBeat data s (i - 1)]
              | none => sequences
            else sequences
          detectBeatSequencesAux data minC fuel (i + 1) none 0 sequences'
      else
        flushBeats data minC currentSequenceStart consecutivePositiveCount sequences

/-- detectBeatSequences: maximal runs of at least `minConsecutiveIntervals`
consecutive strictly positive slopes. -/
def detectBeatSequences (data : List StockData) (minConsecutiveIntervals : ℕ) :
    List BeatSequence :=
  if data.length < minConsecutiveIntervals + 1 then []
  else detectBeatSequencesAux data minConsecutiveIntervals data.length 1 none 0 []

/-- interface PotentialProfitSequence. -/
structure PotentialProfitSequence where
  id : String
  originalSequence : BeatSequence
  startIndex : ℕ
  endIndex : ℕ
  startTime : ℤ
  endTime : ℤ
  startPrice : ℚ
  endPrice : ℚ
  dollarGain : ℚ
  percentageChange : ℚ
  dataPoints : List StockData
  excludedBeats : ℕ
deriving DecidableEq, Repr, Inhabited

/-- calculatePotentialProfitSequences: trim the first and last sample of each
beat sequence with at least 3 samples and recompute the gain.  The JS
forEach with early returns is the filterMap. -/
def calculatePotentialProfitSequences (beatSequences : List BeatSequence) :
    List PotentialProfitSequence :=
  beatSequences.filterMap (fun sequence =>
    if sequence.dataPoints.length < 3 then none
    else
      let trimmedDataPoints := (sequence.dataPoints.drop 1).dropLast
      if trimmedDataPoints.length = 0 then none
      else
        let startData := trimmedDataPoints.getD 0 default
        let endData := trimmedDataPoints.getD (trimmedDataPoints.length - 1) default
        let dollarGain := qSub endData.price startData.price
        let percentageChange := qMul (qDiv dollarGain startData.price) 100
        some { id := "potential-" ++ sequence.id
               originalSequence := sequence
               startIndex := sequence.startIndex + 1
               endIndex := sequence.endIndex - 1
               startTime := startData.timestamp
               endTime := endData.timestamp
               startPrice := startData.price
               endPrice := endData.price
               dollarGain := toFixed2 dollarGain
               percentageChange := toFixed2 percentageChange
               dataPoints := trimmedDataPoints
               excludedBeats := 2 })

/-- interface PotentialLossSequence (legacy fields included). -/
structure PotentialLossSequence where
  id : String
  beforeReversalIndex : ℕ
  reversalIndex : ℕ
  afterReversalIndex : ℕ
  beforeReversalTime : ℤ
  reversalTime : ℤ
  afterReversalTime : ℤ
  beforeReversalPrice : ℚ
  reversalPrice : ℚ
  afterReversalPrice : ℚ
  dollarLoss : ℚ
  percentageChange : ℚ
  dataPoints : List StockData
  upIndex : ℕ
  downIndex : ℕ
  upTime : ℤ
  downTime : ℤ
  upPrice : ℚ
  downPrice : ℚ
deriving DecidableEq, Repr

/-- detectPotentialLossSequences: down-up-down 4-sample windows.  The JS loop
`for (i = 2; i < length - 1; i++)` is the filterMap over `i = k + 2`,
`k < length - 3`. -/
def detectPotentialLossSequences (data : List StockData) : List PotentialLossSequence :=
  if data.length < 4 then []
  else
    (List.range (data.length - 3)).filterMap (fun k =>
      let i := k + 2
      let beforeBeforePrice := priceAt data (i - 2)
      let beforePrice := priceAt data (i - 1)
      let currentPrice := priceAt data i
      let nextPrice := priceAt data (i + 1)
      if beforePrice < beforeBeforePrice ∧ currentPrice > beforePrice ∧
          nextPrice < currentPrice then
        let dollarLoss := qSub currentPrice nextPrice
        let percentageChange := qMul (qDiv dollarLoss currentPrice) 100
        some { id := "loss-" ++ toString (i - 1) ++ "-" ++ toString i ++ "-" ++ toString (i + 1)
               beforeReversalIndex := i - 1
               reversalIndex := i
               afterReversalIndex := i + 1
               beforeReversalTime := timeAt data (i - 1)
               reversalTime := timeAt data i
               afterReversalTime := timeAt data (i + 1)
               beforeReversalPrice := beforePrice
               reversalPrice := currentPrice
               afterReversalPrice := nextPrice
               dollarLoss := toFixed2 dollarLoss
               percentageChange := toFixed2 percentageChange
               dataPoints := [data.getD (i - 2) default, data.getD (i - 1) default,
                              data.getD i default, data.getD (i + 1) default]
               upIndex := i
               downIndex := i + 1
               upTime := timeAt data i
               downTime := timeAt data (i + 1)
               upPrice := currentPrice
               downPrice := nextPrice }
      else none)

/-- Shorthand for building concrete samples in test inputs. -/
def sample (t : ℤ) (p : ℚ) : StockData :=
  { timestamp := t, price := p, volume := 0 }

/-- The six recognised trading method tags. -/
inductive TradingMethod
  | trend_reversal
  | direction_change_reference
  | direction_change_buy
  | price_comparison
  | slope_analysis
  | confirmed_recovery
deriving DecidableEq, Repr

/-- investmentType values. -/
inductive InvestmentType
  | dollars
  | shares
deriving DecidableEq, Repr

/-- TradingBot.settings.  Optional JS fields are Options; `tradingMethod`
is optional here because the dispatcher defends against a missing value
with a trend-reversal fallback. -/
structure BotSettings where
  maxInvestmentPerTrade : ℚ
  investmentType : InvestmentType
  tradingMethod : Option TradingMethod
  dollarDropThreshold : Option ℚ
  dollarDropEnabled : Option Bool
  profitTakingEnabled : Option Bool
  profitTakingPercentage : Option ℚ
  profitTakingDollarAmount : Option ℚ
  dollarDropTriggerAmount : Option ℚ
  sellAtBuyPriceEnabled : Option Bool
  consecutiveFallsEnabled : Option Bool
  consecutiveFallsCount : Option ℕ
  confirmedRecoveryFirstDelay : Option ℚ
  confirmedRecoverySecondDelay : Option ℚ
deriving DecidableEq, Repr

/-- TradingBot.currentPosition. -/
structure Position where
  buyPrice : ℚ
  shares : ℚ
  timestamp : ℤ
  consecutiveFalls : Option ℕ
  lastPrice : Option ℚ
  priceHistory : Option (List ℚ)
deriving DecidableEq, Repr

/-- interface TradingBot (fields read by the decision engine). -/
structure TradingBot where
  id : String
  name : String
  stockSymbol : String
  isActive : Bool
  settings : BotSettings
  lastProcessedIndex : Option ℕ
  currentPosition : Option Position
deriving DecidableEq, Repr

/-- The position delta proposed by the consecutive-falls overlay
(the only shape of updatePosition the source ever builds). -/
structure PositionUpdate where
  priceHistory : List ℚ
  consecutiveFalls : ℕ
deriving DecidableEq, Repr

/-- The reason strings of the engine, as tagged values carrying the numbers
that the source interpolates into the string (after toFixed formatting,
which is a function, so equal values give equal strings). -/
inductive Reason
  | botInactive
  | noCurrentPosition
  | profitTargetReachedAndDropped (pct drop : ℚ)
  | priceFellToBuyPrice (cur buy : ℚ)
  | consecutiveFallsSell (n : ℕ)
  | consecutiveFallsStatus (n threshold : ℕ)
  | dollarDropNotMet
  | priceDroppedFromBuy (drop buy : ℚ)
  | priceDropBelowThreshold (drop threshold : ℚ)
  | lastIntervalNotDownward
  | firstCheckWentUp (d1 : ℚ)
  | secondCheckNotUp (d2 : ℚ)
  | confirmedRecovery (d1 d2 : ℚ)
  | priceCompBuy (cur prev : ℚ)
  | priceCompHoldLe (cur prev : ℚ)
  | insufficientDataPriceComparison
  | priceCompSell (cur prev : ℚ)
  | priceCompHoldGe (cur prev : ℚ)
  | slopePositiveBuy (slope prev cur : ℚ)
  | slopeHoldNegFlat (slope : ℚ)
  | insufficientDataSlopeAnalysis
  | slopeNegativeSell (slope prev cur : ℚ)
  | slopeHoldPosFlat (slope : ℚ)
  | dcRefBuy (cur refPrice : ℚ)
  | dcRefHold (cur refPrice : ℚ)
  | noDirectionChangeReferencePoint
  | dcBuyNewDirectionChange (price : ℚ)
  | waitingForNewDirectionChange
  | trendChangedUpToDown
  | holdingTrendStillUp
  | trendChangedDownToUp
  | waitingForUpwardTrendReversal
deriving DecidableEq, Repr

/-- Decision action tags. -/
inductive TradeAction
  | BUY
  | SELL
  | HOLD
deriving DecidableEq, Repr

/-- Return value of makeTradingDecision. -/
structure Decision where
  action : TradeAction
  reason : Reason
  referencePoint : Option DirectionChangePoint
  newDirectionChange : Option DirectionChangePoint
  updatePosition : Option PositionUpdate
deriving DecidableEq, Repr

/-- A decision with only an action and a reason. -/
def mkDecision (a : TradeAction) (r : Reason) : Decision :=
  { action := a, reason := r, referencePoint := none, newDirectionChange := none,
    updatePosition := none }

/-- Return value of shouldSellWithDollarDrop. -/
structure SellCheck where
  shouldSell : Bool
  reason : Reason
  updatePosition : Option PositionUpdate
deriving DecidableEq, Repr

/-- shouldBuyDirectionChangeReference: buy when the current price is above
the last direction-change price. -/
def shouldBuyDirectionChangeReference (data : List StockData) (currentPrice : ℚ) :
    Bool × Option DirectionChangePoint :=
  match getLastDirectionChangePoint data with
  | none => (false, none)
  | some lastDirectionChange =>
      (decide (currentPrice > lastDirectionChange.price), some lastDirectionChange)

/-- JS `array.slice(-n)`: the last `n` entries. -/
def sliceLast (n : ℕ) (l : List ℚ) : List ℚ :=
  l.drop (l.length - n)

/-- The trailing streak of strictly decreasing entries, counted from the end
of the list (the `for` loop of the consecutive-falls overlay, walking
backwards and stopping at the first non-fall). -/
def countTrailingFallsAux : List ℚ → ℕ
  | x :: y :: rest => if x < y then 1 + countTrailingFallsAux (y :: rest) else 0
  | _ => 0

/-- Consecutive falls counted from the end of the (chronological) list. -/
def countTrailingFalls (l : List ℚ) : ℕ :=
  countTrailingFallsAux l.reverse

/-- The profit-taking sub-rule of shouldSellWithDollarDrop (the first early
return block): a SELL once the profit threshold is reached and the last
two-sample drop is at least the trigger, otherwise nothing. -/
def profitTakingCheck (settings : BotSettings) (currentPrice : ℚ)
    (data : List StockData) (profitLoss profitLossPercentage : ℚ) : Option SellCheck :=
  if settings.profitTakingEnabled.getD false then
    let profitPercentageThreshold := jsOr settings.profitTakingPercentage 10
    let profitDollarThreshold := jsOr settings.profitTakingDollarAmount 0
    let dollarDropTrigger := jsOr settings.dollarDropTriggerAmount (qn 1 10)
    let reachedProfitThreshold :=
      profitLossPercentage ≥ profitPercentageThreshold ∨
        (profitDollarThreshold > 0 ∧ profitLoss ≥ profitDollarThreshold)
    if reachedProfitThreshold ∧ 2 ≤ data.length then
      let previousPrice := priceAt data (data.length - 2)
      let priceDropFromPrevious := qSub previousPrice currentPrice
      if priceDropFromPrevious ≥ dollarDropTrigger then
        some { shouldSell := true,
               reason := Reason.profitTargetReachedAndDropped profitLossPercentage
                 priceDropFromPrevious,
               updatePosition := none }
      else none
    else none
  else none

/-- shouldSellWithDollarDrop: the protective overlay.  Sub-rules in source
order: profit taking with dollar-drop trigger, sell at buy price,
consecutive live falls. -/
def shouldSellWithDollarDrop (bot : TradingBot) (currentPrice : ℚ)
    (data : List StockData) : SellCheck :=
  match bot.currentPosition with
  | none => { shouldSell := false, reason := Reason.noCurrentPosition, updatePosition := none }
  | some pos =>
    let buyPrice := pos.buyPrice
    let shares := pos.shares
    let settings := bot.settings
    let currentValue := qMul currentPrice shares
    let investedAmount := qMul buyPrice shares
    let profitLoss := qSub currentValue investedAmount
    let profitLossPercentage := qMul (qDiv profitLoss investedAmount) 100
    match profitTakingCheck settings currentPrice data profitLoss profitLossPercentage with
    | some result => result
    | none =>
      if settings.sellAtBuyPriceEnabled.getD false ∧ currentPrice ≤ buyPrice then
        { shouldSell := true,
          reason := Reason.priceFellToBuyPrice currentPrice buyPrice,
          updatePosition := none }
      else if settings.consecutiveFallsEnabled.getD false then
        let fallsThreshold := jsOrNat settings.consecutiveFallsCount 3
        let priceHistory := pos.priceHistory.getD [buyPrice]
        let updatedPriceHistory := priceHistory ++ [currentPrice]
        let recentPriceHistory := sliceLast 20 updatedPriceHistory
        let consecutiveFalls := countTrailingFalls recentPriceHistory
        if fallsThreshold ≤ consecutiveFalls then
          { shouldSell := true,
            reason := Reason.consecutiveFallsSell consecutiveFalls,
            updatePosition := some { priceHistory := [currentPrice], consecutiveFalls := 0 } }
        else
          { shouldSell := false,
            reason := Reason.consecutiveFallsStatus consecutiveFalls fallsThreshold,
            updatePosition := some { priceHistory := recentPriceHistory,
                                     consecutiveFalls := consecutiveFalls } }
      else
        { shouldSell := false, reason := Reason.dollarDropNotMet, updatePosition := none }

/-- shouldSellDirectionChangeReference: sell once the price has dropped by
the configured dollar amount below the buy price. -/
def shouldSellDirectionChangeReference (bot : TradingBot) (currentPrice : ℚ) :
    Bool × Reason :=
  match bot.currentPosition with
  | none => (false, Reason.noCurrentPosition)
  | some pos =>
    let buyPrice := pos.buyPrice
    let dollarDropThreshold := jsOr bot.settings.dollarDropThreshold 5
    let priceDrop := qSub buyPrice currentPrice
    if priceDrop ≥ dollarDropThreshold then
      (true, Reason.priceDroppedFromBuy priceDrop buyPrice)
    else
      (false, Reason.priceDropBelowThreshold priceDrop dollarDropThreshold)

/-- shouldBuyDirectionChangeBuy: buy only on a valley newer than the last
processed index. -/
def shouldBuyDirectionChangeBuy (data : List StockData) (lastProcessedIndex : Option ℕ) :
    Bool × Option DirectionChangePoint :=
  if data.length < 3 then (false, none)
  else
    match (getDirectionChangePoints data).getLast? with
    | none => (false, none)
    | some lastChange =>
      let isNewValley :=
        decide (lastChange.type = DCType.valley) &&
          (match lastProcessedIndex with
           | none => true
           | some n => decide (lastChange.index > n))
      if isNewValley then (true, some lastChange) else (false, none)

/-- shouldBuyTrendReversal: buy when the newest direction change is a valley. -/
def shouldBuyTrendReversal (data : List StockData) : Bool :=
  if data.length < 3 then false
  else
    match (getDirectionChangePoints data).getLast? with
    | none => false
    | some lastChange => decide (lastChange.type = DCType.valley)

/-- shouldSellTrendReversal: sell when the newest direction change is a peak. -/
def shouldSellTrendReversal (data : List StockData) : Bool :=
  if data.length < 3 then false
  else
    match (getDirectionChangePoints data).getLast? with
    | none => false
    | some lastChange => decide (lastChange.type = DCType.peak)

/-- shouldBuyPriceComparison: last sample above the previous sample. -/
def shouldBuyPriceComparison (data : List StockData) : Bool :=
  if data.length < 2 then false
  else decide (priceAt data (data.length - 1) > priceAt data (data.length - 2))

/-- shouldSellPriceComparison: last sample below the previous sample. -/
def shouldSellPriceComparison (data : List StockData) : Bool :=
  if data.length < 2 then false
  else decide (priceAt data (data.length - 1) < priceAt data (data.length - 2))

/-- shouldBuySlopeAnalysis: positive two-sample slope. -/
def shouldBuySlopeAnalysis (data : List StockData) : Bool :=
  if data.length < 2 then false
  else decide (priceAt data (data.length - 1) > priceAt data (data.length - 2))

/-- shouldSellSlopeAnalysis: negative two-sample slope. -/
def shouldSellSlopeAnalysis (data : List StockData) : Bool :=
  if data.length < 2 then false
  else decide (priceAt data (data.length - 1) < priceAt data (data.length - 2))

/-- isLastIntervalDownward: last sample below the previous sample. -/
def isLastIntervalDownward (data : List StockData) : Bool :=
  if data.length < 2 then false
  else decide (priceAt data (data.length - 1) < priceAt data (data.length - 2))

/-- simulatePriceCheckAfterDelay: the Math.random() draw `r` (in [0,1] in
JS) is an explicit argument; `data` and `delaySeconds` are accepted and
ignored exactly as in the source. -/
def simulatePriceCheckAfterDelay (data : List StockData) (delaySeconds : ℚ)
    (currentPrice : ℚ) (r : ℚ) : ℚ × Bool :=
  let randomChange := qMul (qSub r (qn 1 2)) (qn 1 100)
  let simulatedPrice := qMul currentPrice (qAdd 1 randomChange)
  (simulatedPrice, decide (simulatedPrice > currentPrice))

/-- shouldBuyConfirmedRecovery: two-stage confirmation, each stage consuming
one random draw. -/
def shouldBuyConfirmedRecovery (data : List StockData) (currentPrice : ℚ)
    (firstDelaySeconds secondDelaySeconds : ℚ) (r1 r2 : ℚ) : Bool × Reason :=
  if ¬ isLastIntervalDownward data then
    (false, Reason.lastIntervalNotDownward)
  else
    let firstCheck := simulatePriceCheckAfterDelay data firstDelaySeconds currentPrice r1
    if firstCheck.2 then
      (false, Reason.firstCheckWentUp firstDelaySeconds)
    else
      let secondCheck :=
        simulatePriceCheckAfterDelay data secondDelaySeconds firstCheck.1 r2
      if ¬ secondCheck.2 then
        (false, Reason.secondCheckNotUp secondDelaySeconds)
      else
        (true, Reason.confirmedRecovery firstDelaySeconds secondDelaySeconds)

/-- The strategy-specific part of makeTradingDecision: the dispatch on
`settings.tradingMethod` (with the trend-reversal fallback) that the source
reaches when the overlay neither sells nor reports a position update.
`r` carries the two random draws consumed by the confirmed-recovery path. -/
def strategyDispatch (bot : TradingBot) (data : List StockData) (currentPrice : ℚ)
    (lastProcessedIndex : Option ℕ) (r : ℚ × ℚ) : Decision :=
  let tradingMethod := bot.settings.tradingMethod.getD TradingMethod.trend_reversal
  match tradingMethod with
  | TradingMethod.price_comparison =>
    match bot.currentPosition with
    | none =>
      if shouldBuyPriceComparison data && decide (2 ≤ data.length) then
        mkDecision TradeAction.BUY
          (Reason.priceCompBuy (priceAt data (data.length - 1)) (priceAt data (data.length - 2)))
      else
        mkDecision TradeAction.HOLD
          (if 2 ≤ data.length then
            Reason.priceCompHoldLe (priceAt data (data.length - 1)) (priceAt data (data.length - 2))
          else Reason.insufficientDataPriceComparison)
    | some _ =>
      if shouldSellPriceComparison data && decide (2 ≤ data.length) then
        mkDecision TradeAction.SELL
          (Reason.priceCompSell (priceAt data (data.length - 1)) (priceAt data (data.length - 2)))
      else
        mkDecision TradeAction.HOLD
          (if 2 ≤ data.length then
            Reason.priceCompHoldGe (priceAt data (data.length - 1)) (priceAt data (data.length - 2))
          else Reason.insufficientDataPriceComparison)
  | TradingMethod.slope_analysis =>
    match bot.currentPosition with
    | none =>
      if shouldBuySlopeAnalysis data && decide (2 ≤ data.length) then
        let cur := priceAt data (data.length - 1)
        let prev := priceAt data (data.length - 2)
        mkDecision TradeAction.BUY (Reason.slopePositiveBuy (qSub cur prev) prev cur)
      else
        mkDecision TradeAction.HOLD
          (if 2 ≤ data.length then
            Reason.slopeHoldNegFlat (qSub (priceAt data (data.length - 1)) (priceAt data (data.length - 2)))
          else Reason.insufficientDataSlopeAnalysis)
    | some _ =>
      if shouldSellSlopeAnalysis data && decide (2 ≤ data.length) then
        let cur := priceAt data (data.length - 1)
        let prev := priceAt data (data.length - 2)
        mkDecision TradeAction.SELL (Reason.slopeNegativeSell (qSub cur prev) prev cur)
      else
        mkDecision TradeAction.HOLD
          (if 2 ≤ data.length then
            Reason.slopeHoldPosFlat (qSub (priceAt data (data.length - 1)) (priceAt data (data.length - 2)))
          else Reason.insufficientDataSlopeAnalysis)
  | TradingMethod.direction_change_reference =>
    match bot.currentPosition with
    | none =>
      match shouldBuyDirectionChangeReference data currentPrice with
      | (true, some referencePoint) =>
        { action := TradeAction.BUY,
          reason := Reason.dcRefBuy currentPrice referencePoint.price,
          referencePoint := some referencePoint,
          newDirectionChange := none, updatePosition := none }
      | (_, referencePoint) =>
        { action := TradeAction.HOLD,
          reason := match referencePoint with
            | some p => Reason.dcRefHold currentPrice p.price
            | none => Reason.noDirectionChangeReferencePoint,
          referencePoint := referencePoint,
          newDirectionChange := none, updatePosition := none }
    | some _ =>
      let result := shouldSellDirectionChangeReference bot currentPrice
      mkDecision (if result.1 then TradeAction.SELL else TradeAction.HOLD) result.2
  | TradingMethod.direction_change_buy =>
    match bot.currentPosition with
    | none =>
      match shouldBuyDirectionChangeBuy data lastProcessedIndex with
      | (true, some newDirectionChange) =>
        { action := TradeAction.BUY,
          reason := Reason.dcBuyNewDirectionChange newDirectionChange.price,
          referencePoint := none,
          newDirectionChange := some newDirectionChange, updatePosition := none }
      | (_, _) =>
        mkDecision TradeAction.HOLD Reason.waitingForNewDirectionChange
    | some _ =>
      if shouldSellTrendReversal data then
        mkDecision TradeAction.SELL Reason.trendChangedUpToDown
      else
        mkDecision TradeAction.HOLD Reason.holdingTrendStillUp
  | TradingMethod.confirmed_recovery =>
    match bot.currentPosition with
    | none =>
      let firstDelay := jsOr bot.settings.confirmedRecoveryFirstDelay 15
      let secondDelay := jsOr bot.settings.confirmedRecoverySecondDelay 30
      let result := shouldBuyConfirmedRecovery data currentPrice firstDelay secondDelay r.1 r.2
      mkDecision (if result.1 then TradeAction.BUY else TradeAction.HOLD) result.2
    | some _ =>
      if shouldSellTrendReversal data then
        mkDecision TradeAction.SELL Reason.trendChangedUpToDown
      else
        mkDecision TradeAction.HOLD Reason.holdingTrendStillUp
  | TradingMethod.trend_reversal =>
    match bot.currentPosition with
    | none =>
      if shouldBuyTrendReversal data then
        mkDecision TradeAction.BUY Reason.trendChangedDownToUp
      else
        mkDecision TradeAction.HOLD Reason.waitingForUpwardTrendReversal
    | some _ =>
      if shouldSellTrendReversal data then
        mkDecision TradeAction.SELL Reason.trendChangedUpToDown
      else
        mkDecision TradeAction.HOLD Reason.holdingTrendStillUp

/-- makeTradingDecision: inactive guard, then the protective overlay (when
enabled and in a position), then the strategy dispatch. -/
def makeTradingDecision (bot : TradingBot) (data : List StockData) (currentPrice : ℚ)
    (lastProcessedIndex : Option ℕ) (r : ℚ × ℚ) : Decision :=
  if bot.isActive = false then
    mkDecision TradeAction.HOLD Reason.botInactive
  else if bot.settings.dollarDropEnabled.getD false && bot.currentPosition.isSome then
    let dollarDropResult := shouldSellWithDollarDrop bot currentPrice data
    if dollarDropResult.shouldSell then
      { action := TradeAction.SELL, reason := dollarDropResult.reason,
        referencePoint := none, newDirectionChange := none,
        updatePosition := dollarDropResult.updatePosition }
    else
      match dollarDropResult.updatePosition with
      | some _ =>
        { action := TradeAction.HOLD, reason := dollarDropResult.reason,
          referencePoint := none, newDirectionChange := none,
          updatePosition := dollarDropResult.updatePosition }
      | none => strategyDispatch bot data currentPrice lastProcessedIndex r
  else strategyDispatch bot data currentPrice lastProcessedIndex r

/-- calculateSharesToBuy: position sizing used by the execution layer
(Math.floor is the rational floor; the share-sized branch does not floor
maxInvestment, exactly as in the source). -/
def calculateSharesToBuy (maxInvestment : ℚ) (investmentType : InvestmentType)
    (currentPrice : ℚ) (availableCash : ℚ) : ℚ :=
  match investmentType with
  | InvestmentType.shares =>
    let maxAffordableShares := (((qDiv availableCash currentPrice).floor : ℤ) : ℚ)
    min maxInvestment maxAffordableShares
  | InvestmentType.dollars =>
    let investmentAmount := min maxInvestment availableCash
    (((qDiv investmentAmount currentPrice).floor : ℤ) : ℚ)


/-- Scenario A input series of the spec: prices 10, 11, 12, 13, 9. -/
def dataScenarioA : List StockData :=
  [sample 0 10, sample 1 11, sample 2 12, sample 3 13, sample 4 9]

/-- A series with four rising intervals then a drop: 10, 11, 12, 13, 14, 9. -/
def dataRise4Drop : List StockData :=
  [sample 0 10, sample 1 11, sample 2 12, sample 3 13, sample 4 14, sample 5 9]

/-- A two-sample falling series: 10, 9. -/
def dataDown2 : List StockData :=
  [sample 0 10, sample 1 9]

/-- A three-sample series with a peak at index 1: 1, 2, 1. -/
def dataPeak3 : List StockData :=
  [sample 0 1, sample 1 2, sample 2 1]

/-- A three-sample series with a valley at index 1: 10, 9, 11. -/
def dataValley3 : List StockData :=
  [sample 0 10, sample 1 9, sample 2 11]

/-- A two-sample rising series: 10, 10.5. -/
def dataUp2 : List StockData :=
  [sample 0 10, sample 1 (qn 21 2)]

/-- Settings with every optional field absent. -/
def emptySettings : BotSettings :=
  { maxInvestmentPerTrade := 100, investmentType := InvestmentType.dollars,
    tradingMethod := none, dollarDropThreshold := none, dollarDropEnabled := none,
    profitTakingEnabled := none, profitTakingPercentage := none,
    profitTakingDollarAmount := none, dollarDropTriggerAmount := none,
    sellAtBuyPriceEnabled := none, consecutiveFallsEnabled := none,
    consecutiveFallsCount := none, confirmedRecoveryFirstDelay := none,
    confirmedRecoverySecondDelay := none }

/-- A position bought at the given price with 1 share and no tracking state. -/
def plainPosition (buyPrice : ℚ) : Position :=
  { buyPrice := buyPrice, shares := 1, timestamp := 0, consecutiveFalls := none,
    lastPrice := none, priceHistory := none }

/-- An active bot built from the given settings and position. -/
def mkBot (settings : BotSettings) (pos : Option Position) : TradingBot :=
  { id := "bot-1", name := "bot", stockSymbol := "TSLA", isActive := true,
    settings := settings, lastProcessedIndex := none, currentPosition := pos }

/-- Bot with the overlay and the consecutive-falls sub-rule enabled, holding
a position bought at 10, with the trend-reversal strategy. -/
def botConsecFalls : TradingBot :=
  mkBot { emptySettings with
          dollarDropEnabled := some true
          consecutiveFallsEnabled := some true
          tradingMethod := some TradingMethod.trend_reversal }
    (some (plainPosition 10))

/-- Bot with the overlay enabled but every sub-rule disabled, holding a
position bought at 10, with the trend-reversal strategy. -/
def botOverlayFallthrough : TradingBot :=
  mkBot { emptySettings with
          dollarDropEnabled := some true
          tradingMethod := some TradingMethod.trend_reversal }
    (some (plainPosition 10))

/-- Active bot with the confirmed-recovery strategy and no position. -/
def botConfirmedRecovery : TradingBot :=
  mkBot { emptySettings with tradingMethod := some TradingMethod.confirmed_recovery } none

/-- Active bot in a position bought at 20 with the overlay and its
sell-at-buy-price sub-rule enabled. -/
def botSellAtBuyPrice : TradingBot :=
  mkBot { emptySettings with
          dollarDropEnabled := some true
          sellAtBuyPriceEnabled := some true
          tradingMethod := some TradingMethod.trend_reversal }
    (some (plainPosition 20))

/-- Active bot with the price-comparison strategy, no overlay, no position. -/
def botPriceComparison : TradingBot :=
  mkBot { emptySettings with tradingMethod := some TradingMethod.price_comparison } none

/-- A fixed pair of random draws for calls whose result does not depend on
them. -/
def rZero : ℚ × ℚ := (0, 0)


/-- Whether the protective overlay runs and intercepts the decision (returns
a SELL or a position update) for the given bot, price and series. -/
def overlayIntercepts (bot : TradingBot) (data : List StockData) (currentPrice : ℚ) : Bool :=
  bot.settings.dollarDropEnabled.getD false && bot.currentPosition.isSome &&
    (let result := shouldSellWithDollarDrop bot currentPrice data
     result.shouldSell || result.updatePosition.isSome)

/-- All slopes from index `s` (exclusive of the interval ending at `e`,
inclusive of the one starting at `s`) are strictly positive. -/
def posRun (data : List StockData) (s e : ℕ) : Prop :=
  ∀ j, s ≤ j → j < e → priceAt data j < priceAt data (j + 1)

/-- A beat sequence is exactly the object built from a strictly rising run
`s .. e` of the series that is either closed by a non-positive slope or ends
the series. -/
def goodBeat (data : List StockData) (b : BeatSequence) : Prop :=
  ∃ s e, b = mkBeat data s e ∧ s < e ∧ e < data.length ∧ posRun data s e ∧
    (e + 1 < data.length → priceAt data (e + 1) ≤ priceAt data e)

/-- The direction-change point of the valley series 10, 9, 11. -/
def dcValleyW : DirectionChangePoint :=
  { index := 1, timestamp := 1, price := 9, type := DCType.valley }

/-- The potential-profit sequence derived from the 10..14 run. -/
def potentialW : PotentialProfitSequence :=
  (calculatePotentialProfitSequences (detectBeatSequences dataRise4Drop 4)).getD 0 default

theorem qAdd_eq (a b : ℚ) : qAdd a b = a + b := by
  have ha : ((a.den : ℚ)) ≠ 0 := Nat.cast_ne_zero.mpr a.den_nz
  have hb : ((b.den : ℚ)) ≠ 0 := Nat.cast_ne_zero.mpr b.den_nz
  conv_rhs => rw [← Rat.num_div_den a, ← Rat.num_div_den b]
  rw [qAdd, Rat.mkRat_eq_div]
  push_cast
  field_simp

theorem qSub_eq (a b : ℚ) : qSub a b = a - b := by
  have ha : ((a.den : ℚ)) ≠ 0 := Nat.cast_ne_zero.mpr a.den_nz
  have hb : ((b.den : ℚ)) ≠ 0 := Nat.cast_ne_zero.mpr b.den_nz
  conv_rhs => rw [← Rat.num_div_den a, ← Rat.num_div_den b]
  rw [qSub, Rat.mkRat_eq_div]
  push_cast
  field_simp
  ring

theorem qMul_eq (a b : ℚ) : qMul a b = a * b := by
  have ha : ((a.den : ℚ)) ≠ 0 := Nat.cast_ne_zero.mpr a.den_nz
  have hb : ((b.den : ℚ)) ≠ 0 := Nat.cast_ne_zero.mpr b.den_nz
  conv_rhs => rw [← Rat.num_div_den a, ← Rat.num_div_den b]
  rw [qMul, Rat.mkRat_eq_div]
  push_cast
  field_simp

theorem qInv_eq (b : ℚ) : qInv b = b⁻¹ := by
  rcases eq_or_ne b.num 0 with h | h
  · have hb : b = 0 := by rwa [Rat.num_eq_zero] at h
    simp [qInv, h, hb]
  · have hnum : ((b.num : ℚ)) ≠ 0 := Int.cast_ne_zero.mpr h
    have hnatAbs : ((b.num.natAbs : ℚ)) ≠ 0 :=
      Nat.cast_ne_zero.mpr (Int.natAbs_ne_zero.mpr h)
    rw [qInv, Rat.mkRat_eq_div, Rat.inv_def', Rat.divInt_eq_div]
    rw [div_eq_div_iff hnatAbs hnum]
    rcases h.lt_or_lt with hneg | hpos
    · rw [Int.sign_eq_neg_one_iff_neg.mpr hneg]
      have h1 : ((b.num.natAbs : ℤ)) = -b.num := by omega
      have habs : ((b.num.natAbs : ℚ)) = -(b.num : ℚ) := by
        rw [(Int.cast_natCast b.num.natAbs).symm, h1, Int.cast_neg]
      push_cast
      rw [habs]
      ring
    · rw [Int.sign_eq_one_iff_pos.mpr hpos]
      have h1 : ((b.num.natAbs : ℤ)) = b.num := Int.natAbs_of_nonneg hpos.le
      have habs : ((b.num.natAbs : ℚ)) = (b.num : ℚ) := by
        rw [(Int.cast_natCast b.num.natAbs).symm, h1]
      push_cast
      rw [habs]
      ring

theorem qDiv_eq (a b : ℚ) : qDiv a b = a / b := by
  rw [qDiv, qMul_eq, qInv_eq, div_eq_mul_inv]

theorem qn_eq (n : ℤ) (d : ℕ) : qn n d = (n : ℚ) / (d : ℚ) := by
  rw [qn, Rat.mkRat_eq_div]


/-- Claim C6: getDirectionChangePoints returns the empty list below 3
samples, detectPotentialLossSequences below 4 samples, and
detectBeatSequences below minConsecutiveIntervals + 1 samples. -/
theorem claim_C6_short_series_empty (data : List StockData) (m : ℕ) :
    (data.length < 3 → getDirectionChangePoints data = []) ∧
    (data.length < 4 → detectPotentialLossSequences data = []) ∧
    (data.length < m + 1 → detectBeatSequences data m = []) := by
  refine ⟨fun h => ?_, fun h => ?_, fun h => ?_⟩
  · rw [getDirectionChangePoints, if_pos h]
  · rw [detectPotentialLossSequences, if_pos h]
  · rw [detectBeatSequences, if_pos h]

/-- Witness for C6 at the two-sample series 10, 9 with minimum run 4. -/
theorem claim_C6_short_series_empty_witness :
    getDirectionChangePoints dataDown2 = [] ∧
    detectPotentialLossSequences dataDown2 = [] ∧
    detectBeatSequences dataDown2 4 = [] := by
  have h := claim_C6_short_series_empty dataDown2 4
  exact ⟨h.1 (by decide), h.2.1 (by decide), h.2.2 (by decide)⟩

/-- Claim C3 counterexample: on the series 10, 11, 12, 13, 9 with
minConsecutiveIntervals = 4, detectBeatSequences returns no BeatSequence at
all (the run 10 to 13 has only 3 positive intervals), not the single
sequence the claim describes. -/
theorem claim_C3_counterexample :
    detectBeatSequences dataScenarioA 4 = [] := by decide

/-- Claim C3 as amended: on the series 10, 11, 12, 13, 9 with
minConsecutiveIntervals = 3, detectBeatSequences returns exactly one
BeatSequence, from index 0 (price 10) through index 3 (price 13), with
dollarGain 3.00 and percentageChange 30.00; the final drop to 9 is
excluded. -/
theorem claim_C3_amended :
    detectBeatSequences dataScenarioA 3 = [mkBeat dataScenarioA 0 3] ∧
    (mkBeat dataScenarioA 0 3).startIndex = 0 ∧
    (mkBeat dataScenarioA 0 3).endIndex = 3 ∧
    (mkBeat dataScenarioA 0 3).startPrice = 10 ∧
    (mkBeat dataScenarioA 0 3).endPrice = 13 ∧
    (mkBeat dataScenarioA 0 3).dollarGain = 3 ∧
    (mkBeat dataScenarioA 0 3).percentageChange = 30 := by decide

/-- If the overlay does not intercept (it is disabled, there is no
position, or it returns neither a SELL nor a position update), the
dispatcher is the inactive guard followed by the strategy dispatch. -/
theorem makeTradingDecision_no_intercept (bot : TradingBot) (data : List StockData)
    (currentPrice : ℚ) (lastProcessedIndex : Option ℕ) (r : ℚ × ℚ)
    (h : overlayIntercepts bot data currentPrice = false) :
    makeTradingDecision bot data currentPrice lastProcessedIndex r =
      if bot.isActive = false then mkDecision TradeAction.HOLD Reason.botInactive
      else strategyDispatch bot data currentPrice lastProcessedIndex r := by
  unfold overlayIntercepts at h
  unfold makeTradingDecision
  by_cases hdd : (bot.settings.dollarDropEnabled.getD false && bot.currentPosition.isSome) = true
  · rw [hdd] at h
    simp only [Bool.true_and] at h
    rcases Bool.or_eq_false_iff.mp h with ⟨hsell, hupd⟩
    have hupd2 : (shouldSellWithDollarDrop bot currentPrice data).updatePosition = none := by
      cases hu : (shouldSellWithDollarDrop bot currentPrice data).updatePosition with
      | none => rfl
      | some u => rw [hu] at hupd; simp at hupd
    by_cases hact : bot.isActive = false
    · rw [if_pos hact, if_pos hact]
    · rw [if_neg hact, if_neg hact, if_pos hdd, if_neg (by rw [hsell]; exact Bool.false_ne_true)]
      rw [hupd2]
  · rw [Bool.not_eq_true] at hdd
    by_cases hact : bot.isActive = false
    · rw [if_pos hact, if_pos hact]
    · rw [if_neg hact, if_neg hact, if_neg (by rw [hdd]; exact Bool.false_ne_true)]

/-- The strategy dispatch ignores the random draws unless the bot is on the
confirmed-recovery method with no open position. -/
theorem strategyDispatch_rand_indep (bot : TradingBot) (data : List StockData)
    (currentPrice : ℚ) (lastProcessedIndex : Option ℕ) (r r' : ℚ × ℚ)
    (h : bot.settings.tradingMethod.getD TradingMethod.trend_reversal =
      TradingMethod.confirmed_recovery → bot.currentPosition.isSome = true) :
    strategyDispatch bot data currentPrice lastProcessedIndex r =
      strategyDispatch bot data currentPrice lastProcessedIndex r' := by
  simp only [strategyDispatch]
  cases hm : bot.settings.tradingMethod.getD TradingMethod.trend_reversal with
  | confirmed_recovery =>
    cases hp : bot.currentPosition with
    | none =>
      have hh := h hm
      rw [hp] at hh
      simp at hh
    | some pos => rfl
  | trend_reversal => rfl
  | direction_change_reference => rfl
  | direction_change_buy => rfl
  | price_comparison => rfl
  | slope_analysis => rfl

/-- The strategy dispatch ignores the live price argument on the
price-comparison and slope-analysis methods. -/
theorem strategyDispatch_cp_indep (bot : TradingBot) (data : List StockData)
    (lastProcessedIndex : Option ℕ) (r : ℚ × ℚ) (cp cp' : ℚ)
    (hm : bot.settings.tradingMethod.getD TradingMethod.trend_reversal =
        TradingMethod.price_comparison ∨
      bot.settings.tradingMethod.getD TradingMethod.trend_reversal =
        TradingMethod.slope_analysis) :
    strategyDispatch bot data cp lastProcessedIndex r =
      strategyDispatch bot data cp' lastProcessedIndex r := by
  simp only [strategyDispatch]
  rcases hm with hm | hm <;> rw [hm]

/-- Every result the profit-taking sub-rule returns is a SELL. -/
theorem profitTakingCheck_shouldSell (settings : BotSettings) (currentPrice : ℚ)
    (data : List StockData) (profitLoss profitLossPercentage : ℚ) (result : SellCheck)
    (h : profitTakingCheck settings currentPrice data profitLoss profitLossPercentage =
      some result) :
    result.shouldSell = true := by
  unfold profitTakingCheck at h
  split at h
  · try dsimp only at h
    split at h
    · try dsimp only at h
      split at h
      · injection h with h1
        rw [← h1]
      · cases h
    · cases h
  · cases h

/-- When the sell-at-buy-price sub-rule is enabled, a position is open and
the current price is at or below the buy price, the overlay returns a SELL. -/
theorem shouldSellWithDollarDrop_sellAtBuyPrice (bot : TradingBot) (currentPrice : ℚ)
    (data : List StockData) (pos : Position)
    (hpos : bot.currentPosition = some pos)
    (hsb : bot.settings.sellAtBuyPriceEnabled.getD false = true)
    (hle : currentPrice ≤ pos.buyPrice) :
    (shouldSellWithDollarDrop bot currentPrice data).shouldSell = true := by
  unfold shouldSellWithDollarDrop
  rw [hpos]
  dsimp only
  split
  · next result hr =>
      exact profitTakingCheck_shouldSell _ _ _ _ _ _ hr
  · rw [if_pos ⟨hsb, hle⟩]

/-- Claim C1 counterexample: an active bot with dollarDropEnabled and the
consecutive-falls sub-rule on, in a position, where the overlay does not
return SELL, yet makeTradingDecision returns HOLD while the strategy
evaluator (trend reversal on a peak) would return SELL: control does not
fall through. -/
theorem claim_C1_counterexample :
    (shouldSellWithDollarDrop botConsecFalls 12 dataPeak3).shouldSell = false ∧
    (makeTradingDecision botConsecFalls dataPeak3 12 none rZero).action = TradeAction.HOLD ∧
    (strategyDispatch botConsecFalls dataPeak3 12 none rZero).action = TradeAction.SELL := by
  decide

/-- Claim C1 as amended: for every active bot with dollarDropEnabled set and
an open position, if no protective sub-rule fires (the overlay does not
return SELL) and the overlay reports no position update (as happens whenever
the consecutive-falls sub-rule is disabled), makeTradingDecision returns
exactly the decision of the strategy evaluator selected by
settings.tradingMethod. -/
theorem claim_C1_amended (bot : TradingBot) (data : List StockData) (currentPrice : ℚ)
    (lastProcessedIndex : Option ℕ) (r : ℚ × ℚ)
    (hact : bot.isActive = true)
    (_hdd : bot.settings.dollarDropEnabled.getD false = true)
    (_hpos : bot.currentPosition.isSome = true)
    (hsell : (shouldSellWithDollarDrop bot currentPrice data).shouldSell = false)
    (hupd : (shouldSellWithDollarDrop bot currentPrice data).updatePosition = none) :
    makeTradingDecision bot data currentPrice lastProcessedIndex r =
      strategyDispatch bot data currentPrice lastProcessedIndex r := by
  have hint : overlayIntercepts bot data currentPrice = false := by
    simp only [overlayIntercepts]
    rw [hsell, hupd]
    simp
  rw [makeTradingDecision_no_intercept bot data currentPrice lastProcessedIndex r hint]
  rw [if_neg (by simp [hact])]

/-- Witness for the amended C1: overlay enabled with all sub-rules off,
position at 10, current price 12, trend-reversal strategy on a peak. -/
theorem claim_C1_amended_witness :
    makeTradingDecision botOverlayFallthrough dataPeak3 12 none rZero =
      strategyDispatch botOverlayFallthrough dataPeak3 12 none rZero :=
  claim_C1_amended botOverlayFallthrough dataPeak3 12 none rZero (by decide) (by decide)
    (by decide) (by decide) (by decide)

/-- Claim C2 counterexample: two calls of makeTradingDecision with identical
bot (active, confirmed_recovery, no position), series, current price and
lastProcessedIndex return different decisions for different random draws of
the price-check simulation, so the source function (whose draws come from
Math.random inside the call) is not deterministic in its arguments. -/
theorem claim_C2_counterexample :
    makeTradingDecision botConfirmedRecovery dataDown2 9 none (qn 2 5, qn 3 5) ≠
      makeTradingDecision botConfirmedRecovery dataDown2 9 none (qn 3 5, qn 3 5) := by
  decide

/-- Claim C2 as amended: makeTradingDecision is deterministic (independent
of the random draws, hence bit-identical across calls with the same bot,
series, current price and lastProcessedIndex) for every configured
tradingMethod except the confirmed_recovery buy path: whenever the effective
method is not confirmed_recovery, or a position is open, two calls with
identical arguments and arbitrary draws agree exactly. -/
theorem claim_C2_amended (bot : TradingBot) (data : List StockData) (currentPrice : ℚ)
    (lastProcessedIndex : Option ℕ) (r r' : ℚ × ℚ)
    (h : bot.settings.tradingMethod.getD TradingMethod.trend_reversal =
      TradingMethod.confirmed_recovery → bot.currentPosition.isSome = true) :
    makeTradingDecision bot data currentPrice lastProcessedIndex r =
      makeTradingDecision bot data currentPrice lastProcessedIndex r' := by
  have hsd := strategyDispatch_rand_indep bot data currentPrice lastProcessedIndex r r' h
  unfold makeTradingDecision
  simp only [hsd]

/-- Witness for the amended C2: price-comparison bot, same arguments, two
different draw pairs, identical decisions. -/
theorem claim_C2_amended_witness :
    makeTradingDecision botPriceComparison dataUp2 5 none (qn 1 2, qn 1 3) =
      makeTradingDecision botPriceComparison dataUp2 5 none (qn 2 5, qn 3 5) :=
  claim_C2_amended botPriceComparison dataUp2 5 none (qn 1 2, qn 1 3) (qn 2 5, qn 3 5)
    (by decide)

/-- Claim C7: for every active bot holding a position bought at 20 whose
settings enable the overlay and its sell-at-buy-price sub-rule,
makeTradingDecision at current price 19.99 returns SELL, whatever the
configured tradingMethod, series, lastProcessedIndex and random draws. -/
theorem claim_C7_sell_at_buy_price (bot : TradingBot) (data : List StockData)
    (currentPrice : ℚ) (lastProcessedIndex : Option ℕ) (r : ℚ × ℚ) (pos : Position)
    (hact : bot.isActive = true)
    (hdd : bot.settings.dollarDropEnabled.getD false = true)
    (hsb : bot.settings.sellAtBuyPriceEnabled.getD false = true)
    (hpos : bot.currentPosition = some pos)
    (hbp : pos.buyPrice = 20)
    (hcp : currentPrice = qn 1999 100) :
    (makeTradingDecision bot data currentPrice lastProcessedIndex r).action =
      TradeAction.SELL := by
  have hle : currentPrice ≤ pos.buyPrice := by
    rw [hcp, hbp]
    decide
  have hsell := shouldSellWithDollarDrop_sellAtBuyPrice bot currentPrice data pos hpos hsb hle
  unfold makeTradingDecision
  rw [if_neg (by simp [hact])]
  rw [if_pos (by rw [hdd, hpos]; rfl)]
  dsimp only
  rw [if_pos hsell]

/-- Witness for C7: the concrete bot bought at 20 with sell-at-buy-price on,
on the peak series, at price 19.99. -/
theorem claim_C7_sell_at_buy_price_witness :
    (makeTradingDecision botSellAtBuyPrice dataPeak3 (qn 1999 100) none rZero).action =
      TradeAction.SELL :=
  claim_C7_sell_at_buy_price botSellAtBuyPrice dataPeak3 (qn 1999 100) none rZero
    (plainPosition 20) (by decide) (by decide) (by decide) (by decide) (by decide) (by decide)

/-- Claim C10: on the price-comparison and slope-analysis methods, when the
overlay does not intercept at either price, two makeTradingDecision calls
differing only in the currentPrice argument return identical decisions (the
comparison and the reason use the last two samples, not the live price). -/
theorem claim_C10_cp_independent (bot : TradingBot) (data : List StockData)
    (lastProcessedIndex : Option ℕ) (r : ℚ × ℚ) (cp cp' : ℚ)
    (hm : bot.settings.tradingMethod.getD TradingMethod.trend_reversal =
        TradingMethod.price_comparison ∨
      bot.settings.tradingMethod.getD TradingMethod.trend_reversal =
        TradingMethod.slope_analysis)
    (h1 : overlayIntercepts bot data cp = false)
    (h2 : overlayIntercepts bot data cp' = false) :
    makeTradingDecision bot data cp lastProcessedIndex r =
      makeTradingDecision bot data cp' lastProcessedIndex r := by
  rw [makeTradingDecision_no_intercept bot data cp lastProcessedIndex r h1]
  rw [makeTradingDecision_no_intercept bot data cp' lastProcessedIndex r h2]
  rw [strategyDispatch_cp_indep bot data lastProcessedIndex r cp cp' hm]

/-- Witness for C10: the price-comparison bot at live prices 5 and 7 over
the same rising series. -/
theorem claim_C10_cp_independent_witness :
    makeTradingDecision botPriceComparison dataUp2 5 none rZero =
      makeTradingDecision botPriceComparison dataUp2 7 none rZero :=
  claim_C10_cp_independent botPriceComparison dataUp2 none rZero 5 7 (by decide) (by decide)
    (by decide)

/-- Claim C4 counterexample: the confirmed-recovery buy evaluator can return
shouldBuy = true on a series of only 2 samples (below the 3-sample minimum
the claim states), because its only data guard is the 2-sample
last-interval-downward check; with draws 0.4 and 0.6 both stages confirm. -/
theorem claim_C4_counterexample :
    dataDown2.length < 3 ∧
    (shouldBuyConfirmedRecovery dataDown2 9 15 30 (qn 2 5) (qn 3 5)).1 = true := by
  decide

/-- Claim C4 as amended: every strategy evaluator given fewer samples than
its minimum returns a negative result and never an error; the
confirmed-recovery minimum is 2 samples (not 3): below 2 samples
shouldBuyConfirmedRecovery returns shouldBuy = false for all delays and
draws, and the 3-sample evaluators return their negative results below 3. -/
theorem claim_C4_amended (data : List StockData) (currentPrice d1 d2 r1 r2 : ℚ)
    (lastProcessedIndex : Option ℕ) :
    (data.length < 3 → shouldBuyTrendReversal data = false) ∧
    (data.length < 3 → shouldSellTrendReversal data = false) ∧
    (data.length < 3 →
      shouldBuyDirectionChangeReference data currentPrice = (false, none)) ∧
    (data.length < 3 →
      shouldBuyDirectionChangeBuy data lastProcessedIndex = (false, none)) ∧
    (data.length < 2 → shouldBuyPriceComparison data = false) ∧
    (data.length < 2 → shouldSellPriceComparison data = false) ∧
    (data.length < 2 → shouldBuySlopeAnalysis data = false) ∧
    (data.length < 2 → shouldSellSlopeAnalysis data = false) ∧
    (data.length < 2 →
      (shouldBuyConfirmedRecovery data currentPrice d1 d2 r1 r2).1 = false) := by
  refine ⟨fun h => ?_, fun h => ?_, fun h => ?_, fun h => ?_, fun h => ?_, fun h => ?_,
    fun h => ?_, fun h => ?_, fun h => ?_⟩
  · rw [shouldBuyTrendReversal, if_pos h]
  · rw [shouldSellTrendReversal, if_pos h]
  · rw [shouldBuyDirectionChangeReference, getLastDirectionChangePoint,
      getDirectionChangePoints, if_pos h]
    rfl
  · rw [shouldBuyDirectionChangeBuy, if_pos h]
  · rw [shouldBuyPriceComparison, if_pos h]
  · rw [shouldSellPriceComparison, if_pos h]
  · rw [shouldBuySlopeAnalysis, if_pos h]
  · rw [shouldSellSlopeAnalysis, if_pos h]
  · rw [shouldBuyConfirmedRecovery, isLastIntervalDownward, if_pos h]
    rfl

/-- Witness for the amended C4 at a one-sample series. -/
theorem claim_C4_amended_witness :
    shouldBuyTrendReversal [sample 0 10] = false ∧
    shouldSellTrendReversal [sample 0 10] = false ∧
    shouldBuyDirectionChangeReference [sample 0 10] 9 = (false, none) ∧
    shouldBuyDirectionChangeBuy [sample 0 10] none = (false, none) ∧
    shouldBuyPriceComparison [sample 0 10] = false ∧
    shouldSellPriceComparison [sample 0 10] = false ∧
    shouldBuySlopeAnalysis [sample 0 10] = false ∧
    shouldSellSlopeAnalysis [sample 0 10] = false ∧
    (shouldBuyConfirmedRecovery [sample 0 10] 9 15 30 (qn 2 5) (qn 3 5)).1 = false := by
  have h := claim_C4_amended [sample 0 10] 9 15 30 (qn 2 5) (qn 3 5) none
  exact ⟨h.1 (by decide), h.2.1 (by decide), h.2.2.1 (by decide), h.2.2.2.1 (by decide),
    h.2.2.2.2.1 (by decide), h.2.2.2.2.2.1 (by decide), h.2.2.2.2.2.2.1 (by decide),
    h.2.2.2.2.2.2.2.1 (by decide), h.2.2.2.2.2.2.2.2 (by decide)⟩

/-- The slope test of the beat scan, restated on the prices. -/
theorem slope_pos_iff (data : List StockData) (i : ℕ) :
    (0 < qSub (priceAt data i) (priceAt data (i - 1))) ↔
      priceAt data (i - 1) < priceAt data i := by
  rw [qSub_eq]
  exact sub_pos

/-- A strictly rising run extends by one more positive slope. -/
theorem posRun_extend (data : List StockData) (s e : ℕ)
    (h : posRun data s e) (hs : s ≤ e) (hnext : priceAt data e < priceAt data (e + 1)) :
    posRun data s (e + 1) := by
  intro j hj1 hj2
  rcases Nat.lt_or_ge j e with hlt | hge
  · exact h j hj1 hlt
  · have hje : j = e := by omega
    rw [hje]
    exact hnext

/-- Loop invariant of the beat scan: provided the state invariant holds on
entry and the accumulator holds only good beats, every output of the scan is
a good beat. -/
theorem detectBeatSequencesAux_good (data : List StockData) (minC : ℕ) :
    ∀ (fuel i : ℕ) (start : Option ℕ) (count : ℕ) (acc : List BeatSequence),
      1 ≤ i → i ≤ data.length → data.length < fuel + i →
      ((count = 0 ∧ start = none) ∨
        (0 < count ∧ ∃ s, start = some s ∧ s + count + 1 = i ∧ posRun data s (i - 1))) →
      (∀ b ∈ acc, goodBeat data b) →
      ∀ b ∈ detectBeatSequencesAux data minC fuel i start count acc, goodBeat data b := by
  intro fuel
  induction fuel with
  | zero =>
    intro i start count acc h1 h2 h3 hinv hacc b hb
    exact ((by omega : False)).elim
  | succ fuel ih =>
    intro i start count acc h1 h2 h3 hinv hacc b hb
    simp only [detectBeatSequencesAux] at hb
    by_cases hlt : i < data.length
    · rw [if_pos hlt] at hb
      by_cases hslope : 0 < qSub (priceAt data i) (priceAt data (i - 1))
      · rw [if_pos hslope] at hb
        have hrise : priceAt data (i - 1) < priceAt data i := (slope_pos_iff data i).mp hslope
        refine ih (i + 1) _ (count + 1) acc (by omega) (by omega) (by omega) ?_ hacc b hb
        refine Or.inr ⟨by omega, ?_⟩
        rcases hinv with ⟨hc0, hs0⟩ | ⟨hcpos, s, hs, hsum, hrun⟩
        · refine ⟨i - 1, ?_, by omega, ?_⟩
          · rw [if_pos hc0]
          · intro j hj1 hj2
            have hji1 : j + 1 = i := by omega
            have hji : j = i - 1 := by omega
            rw [hji1, hji]
            exact hrise
        · refine ⟨s, ?_, by omega, ?_⟩
          · rw [if_neg (by omega), hs]
          · have hrun2 : posRun data s ((i - 1) + 1) := by
              refine posRun_extend data s (i - 1) hrun (by omega) ?_
              have hi1 : (i - 1) + 1 = i := by omega
              rw [hi1]
              exact hrise
            have hi1 : (i - 1) + 1 = i := by omega
            rw [hi1] at hrun2
            intro j hj1 hj2
            exact hrun2 j hj1 (by omega)
      · rw [if_neg hslope] at hb
        have hfall : priceAt data i ≤ priceAt data (i - 1) := by
          rw [qSub_eq] at hslope
          have := not_lt.mp hslope
          exact sub_nonpos.mp this
        refine ih (i + 1) none 0 _ (by omega) (by omega) (by omega)
          (Or.inl ⟨rfl, rfl⟩) ?_ b hb
        intro b2 hb2
        by_cases hc : minC ≤ count
        · rw [if_pos hc] at hb2
          rcases hinv with ⟨hc0, hs0⟩ | ⟨hcpos, s, hs, hsum, hrun⟩
          · rw [hs0] at hb2
            exact hacc b2 hb2
          · rw [hs] at hb2
            rcases List.mem_append.mp hb2 with hmem | hmem
            · exact hacc b2 hmem
            · have hb2eq : b2 = mkBeat data s (i - 1) := List.mem_singleton.mp hmem
              refine ⟨s, i - 1, hb2eq, by omega, by omega, hrun, ?_⟩
              intro hnext
              have hi1 : (i - 1) + 1 = i := by omega
              rw [hi1]
              exact hfall
        · rw [if_neg hc] at hb2
          exact hacc b2 hb2
    · rw [if_neg hlt] at hb
      have hieq : i = data.length := by omega
      unfold flushBeats at hb
      by_cases hc : minC ≤ count
      · rw [if_pos hc] at hb
        rcases hinv with ⟨hc0, hs0⟩ | ⟨hcpos, s, hs, hsum, hrun⟩
        · rw [hs0] at hb
          exact hacc b hb
        · rw [hs] at hb
          rcases List.mem_append.mp hb with hmem | hmem
          · exact hacc b hmem
          · have hbeq : b = mkBeat data s (data.length - 1) := List.mem_singleton.mp hmem
            refine ⟨s, data.length - 1, hbeq, by omega, by omega, ?_, ?_⟩
            · intro j hj1 hj2
              exact hrun j hj1 (by omega)
            · intro hnext
              exact ((by omega : False)).elim
      · rw [if_neg hc] at hb
        exact hacc b hb

/-- Every sequence returned by detectBeatSequences is a good beat. -/
theorem detectBeatSequences_good (data : List StockData) (m : ℕ) :
    ∀ b ∈ detectBeatSequences data m, goodBeat data b := by
  intro b hb
  rw [detectBeatSequences] at hb
  split at hb
  · cases hb
  · next hlen =>
    exact detectBeatSequencesAux_good data m data.length 1 none 0 [] (by omega) (by omega)
      (by omega) (Or.inl ⟨rfl, rfl⟩) (by intro b2 hb2; cases hb2) b hb

theorem mkBeat_startIndex (data : List StockData) (s e : ℕ) :
    (mkBeat data s e).startIndex = s := rfl

theorem mkBeat_endIndex (data : List StockData) (s e : ℕ) :
    (mkBeat data s e).endIndex = e := rfl

theorem mkBeat_startPrice (data : List StockData) (s e : ℕ) :
    (mkBeat data s e).startPrice = (data.getD s default).price := rfl

theorem mkBeat_endPrice (data : List StockData) (s e : ℕ) :
    (mkBeat data s e).endPrice = (data.getD e default).price := rfl

theorem mkBeat_percentageChange (data : List StockData) (s e : ℕ) :
    (mkBeat data s e).percentageChange =
      toFixed2 (qMul (qDiv (qSub (data.getD e default).price (data.getD s default).price)
        (data.getD s default).price) 100) := rfl

/-- Claim C5: every BeatSequence emitted by detectBeatSequences has strictly
increasing prices between each pair of consecutive samples from startIndex
through endIndex, and the sample immediately after endIndex, when it exists,
has price at most the price at endIndex. -/
theorem claim_C5_beat_invariant (data : List StockData) (m : ℕ) (b : BeatSequence)
    (hb : b ∈ detectBeatSequences data m) :
    (∀ j, b.startIndex ≤ j → j < b.endIndex → priceAt data j < priceAt data (j + 1)) ∧
    (b.endIndex + 1 < data.length →
      priceAt data (b.endIndex + 1) ≤ priceAt data b.endIndex) := by
  obtain ⟨s, e, hbeq, hse, helen, hrun, hnext⟩ := detectBeatSequences_good data m b hb
  subst hbeq
  rw [mkBeat_startIndex, mkBeat_endIndex]
  exact ⟨hrun, hnext⟩

/-- Witness for C5 on the run 10, 11, 12, 13, 14 closed by the drop to 9. -/
theorem claim_C5_beat_invariant_witness :
    priceAt dataRise4Drop 1 < priceAt dataRise4Drop 2 ∧
    priceAt dataRise4Drop 5 ≤ priceAt dataRise4Drop 4 := by
  have h := claim_C5_beat_invariant dataRise4Drop 4 (mkBeat dataRise4Drop 0 4) (by decide)
  refine ⟨h.1 1 ?_ ?_, ?_⟩
  · decide
  · decide
  · have h2 := h.2
    rw [mkBeat_endIndex] at h2
    exact h2 (by decide)

/-- Claim C8: for every BeatSequence produced by detectBeatSequences and
every PotentialProfitSequence produced by calculatePotentialProfitSequences,
the stored percentageChange equals (endPrice - startPrice) / startPrice
times 100, rounded to 2 decimals. -/
theorem claim_C8_percentage_roundtrip (data : List StockData) (m : ℕ)
    (seqs : List BeatSequence) (b : BeatSequence) (p : PotentialProfitSequence)
    (hb : b ∈ detectBeatSequences data m)
    (hp : p ∈ calculatePotentialProfitSequences seqs) :
    b.percentageChange = toFixed2 ((b.endPrice - b.startPrice) / b.startPrice * 100) ∧
    p.percentageChange = toFixed2 ((p.endPrice - p.startPrice) / p.startPrice * 100) := by
  constructor
  · obtain ⟨s, e, hbeq, _⟩ := detectBeatSequences_good data m b hb
    subst hbeq
    rw [mkBeat_percentageChange, mkBeat_endPrice, mkBeat_startPrice]
    rw [qSub_eq, qDiv_eq, qMul_eq]
  · rw [calculatePotentialProfitSequences, List.mem_filterMap] at hp
    obtain ⟨seq, hseq, hfp⟩ := hp
    split at hfp
    · cases hfp
    · dsimp only at hfp
      split at hfp
      · cases hfp
      · injection hfp with hfp
        subst hfp
        dsimp only
        rw [qSub_eq, qDiv_eq, qMul_eq]

/-- Witness for C8 at the 10..14 run and its trimmed 11..13 sub-run. -/
theorem claim_C8_percentage_roundtrip_witness :
    (mkBeat dataRise4Drop 0 4).percentageChange =
      toFixed2 (((mkBeat dataRise4Drop 0 4).endPrice - (mkBeat dataRise4Drop 0 4).startPrice) /
        (mkBeat dataRise4Drop 0 4).startPrice * 100) ∧
    potentialW.percentageChange =
      toFixed2 ((potentialW.endPrice - potentialW.startPrice) / potentialW.startPrice * 100) :=
  claim_C8_percentage_roundtrip dataRise4Drop 4 (detectBeatSequences dataRise4Drop 4)
    (mkBeat dataRise4Drop 0 4) potentialW (by decide) (by decide)

/-- Claim C9: every direction-change point has index between 1 and
length - 2 inclusive, and the point returned by getLastDirectionChangePoint
never refers to the newest sample of the series. -/
theorem claim_C9_index_bounds (data : List StockData) :
    (∀ p ∈ getDirectionChangePoints data, 1 ≤ p.index ∧ p.index + 2 ≤ data.length) ∧
    (∀ p, getLastDirectionChangePoint data = some p →
      1 ≤ p.index ∧ p.index + 2 ≤ data.length ∧ p.index ≠ data.length - 1) := by
  have hmem : ∀ p ∈ getDirectionChangePoints data,
      1 ≤ p.index ∧ p.index + 2 ≤ data.length := by
    intro p hp
    rw [getDirectionChangePoints] at hp
    split at hp
    · cases hp
    · next hlen =>
      rw [List.mem_filterMap] at hp
      obtain ⟨k, hk, hfk⟩ := hp
      rw [List.mem_range] at hk
      have hlen3 : 3 ≤ data.length := by omega
      dsimp only at hfk
      split at hfk
      · injection hfk with hfk
        subst hfk
        dsimp only
        omega
      · split at hfk
        · injection hfk with hfk
          subst hfk
          dsimp only
          omega
        · cases hfk
  refine ⟨hmem, fun p hp => ?_⟩
  rw [getLastDirectionChangePoint] at hp
  have hpmem : p ∈ getDirectionChangePoints data := List.mem_of_getLast?_eq_some hp
  obtain ⟨hge, hle⟩ := hmem p hpmem
  exact ⟨hge, hle, by omega⟩

/-- Witness for C9 on the valley series 10, 9, 11. -/
theorem claim_C9_index_bounds_witness :
    1 ≤ dcValleyW.index ∧ dcValleyW.index + 2 ≤ dataValley3.length ∧
    dcValleyW.index ≠ dataValley3.length - 1 :=
  (claim_C9_index_bounds dataValley3).2 dcValleyW (by decide)
